import Mathlib

/-!
Verification development for the spn-sqlite repository: a worker-pool-backed
asynchronous SQLite driver. The JavaScript sources are shallowly embedded:
JS strings are lists of characters, the asynchronous dispatcher is a labelled
transition system whose steps are the synchronous blocks between await points
of the source, and the outcome of each awaited operation is passed as an
explicit oracle argument.
-/

/-- JS strings modeled as lists of characters. -/
abbrev Str := List Char

/-- JS `String.prototype.split` on a single separator character.
The result is always nonempty; joining the pieces with the separator
recovers the original string. -/
def splitOnChar (c : Char) : Str → List Str
  | [] => [[]]
  | x :: xs =>
    match splitOnChar c xs with
    | [] => [[]]
    | h :: t => if x = c then [] :: h :: t else (x :: h) :: t

/- ───────────── SQL Composer (src/unnamed/part_001, SQLCompiler.compile) ───────────── -/

/-- Error thrown by `SQLCompiler.compile` when the fragment and value lists
have mismatched sizes (the spec calls this `InvalidQuery`). -/
inductive CompileError
  | invalidQuery
deriving DecidableEq

/-- The `{sql, values}` record returned by `SQLCompiler.compile`. -/
structure Compiled (α : Type) where
  sql : Str
  values : List α
deriving DecidableEq

/-- `SQLCompiler.compile(strings, values)` from src/unnamed/part_001 for array
input: first the arity check `values.length !== strings.length - 1` (JS numbers,
so the subtraction is over the integers), then the fast path joining the
fragments when there are no values, otherwise the loop
`sql = strings[0]; for i: sql += '?' + strings[i+1]`, which reads exactly
`values.length` fragments after the first. Values are opaque (type parameter):
composition never inspects them. The variant in src/lib/SQLCompiler.js is the
same function without the arity check. -/
def compile (strings : List Str) (values : List α) : Except CompileError (Compiled α) :=
  if (strings.length : Int) - 1 ≠ (values.length : Int) then
    .error .invalidQuery
  else if values.length = 0 then
    .ok ⟨strings.flatten, []⟩
  else
    .ok ⟨strings.headD [] ++ (((strings.drop 1).take values.length).map (fun s => '?' :: s)).flatten, values⟩

/-- The sql shape the spec describes:
`fragments[0] ++ "?" ++ fragments[1] ++ ... ++ "?" ++ fragments[N-1]`. -/
def specSql (strings : List Str) : Str :=
  match strings with
  | [] => []
  | f :: fs => f ++ (fs.map (fun s => '?' :: s)).flatten

deriving instance DecidableEq for Except

/- ───────────── Application surface (src/lib/DB.js) ───────────── -/

/-- Transaction-control job methods submitted by `DB.transaction`. -/
inductive TxJob
  | beginTransaction
  | commit
  | rollback
deriving DecidableEq

/-- Observable outcome of one `DB.transaction(fn)` call: the value returned or
error re-raised, the final `inTransaction` flag, the jobs submitted to the
dispatcher in order, and whether the user callback was invoked. -/
structure TxResult (ε ρ : Type) where
  result : Except ε ρ
  inTransaction : Bool
  submitted : List TxJob
  fnInvoked : Bool
deriving DecidableEq

/-- `DB.transaction(fn)` from src/lib/DB.js. The outcomes of the awaited
submissions (`beginTransaction`, `commit`, `rollback`) and of the user callback
are oracle arguments. If the flag is already set the callback runs directly and
nothing is submitted. Otherwise the flag is set, `beginTransaction` is
submitted, the callback runs, and `commit` is submitted; any error along the
way jumps to the catch block, which submits `rollback` (its outcome `rollbackR`
is ignored, mirroring `.catch(() => \x7b\x7d)`), clears the flag and re-raises. -/
def transaction (inTx : Bool) (beginR : Except ε Unit) (fnR : Except ε ρ)
    (commitR : Except ε Unit) (rollbackR : Except ε Unit) : TxResult ε ρ :=
  if inTx then
    { result := fnR, inTransaction := inTx, submitted := [], fnInvoked := true }
  else
    match beginR with
    | .error e =>
      { result := .error e, inTransaction := false,
        submitted := [.beginTransaction, .rollback], fnInvoked := false }
    | .ok _ =>
      match fnR with
      | .error e =>
        { result := .error e, inTransaction := false,
          submitted := [.beginTransaction, .rollback], fnInvoked := true }
      | .ok r =>
        match commitR with
        | .ok _ =>
          { result := .ok r, inTransaction := false,
            submitted := [.beginTransaction, .commit], fnInvoked := true }
        | .error e =>
          { result := .error e, inTransaction := false,
            submitted := [.beginTransaction, .commit, .rollback], fnInvoked := true }

/-- The `workers` constructor option: a JS argument that can be left out
(undefined), passed as null, or given as a number. -/
inductive WorkersArg
  | undefined
  | null
  | num (n : Nat)
deriving DecidableEq

/-- The `defaultWorkers` expression in the DB constructor (src/lib/DB.js):
1 for the native binding, otherwise the available parallelism for in-memory
databases, otherwise 2. -/
def defaultWorkers (driver filename : String) (availableParallelism : Nat) : Nat :=
  if driver = "better-sqlite" then 1
  else if filename = ":memory:" then availableParallelism
  else 2

/-- The dispatcher size computed by the DB constructor: the destructuring
default `workers = 1` turns an omitted or undefined argument into 1, and then
`workers ?? defaultWorkers` keeps any non-nullish value, so `defaultWorkers`
is consulted only when `workers` is passed as null. -/
def dbWorkerSize (workers : WorkersArg) (driver filename : String)
    (availableParallelism : Nat) : Nat :=
  let w : Option Nat :=
    match workers with
    | .undefined => some 1
    | .null => none
    | .num n => some n
  w.getD (defaultWorkers driver filename availableParallelism)

example : compile [("SELECT * FROM users WHERE id = ").toList, "".toList] [(1 : Int)]
    = .ok ⟨("SELECT * FROM users WHERE id = ?").toList, [1]⟩ := by decide
example : compile ([] : List Str) ([] : List Int) = .error .invalidQuery := by decide
example : dbWorkerSize .undefined "node:sqlite" ":memory:" 8 = 1 := by decide

/- ───────────── Worker Handle (src/unnamed/part_000, class DBWorker) ───────────── -/

/-- State of one `DBWorker` handle: the `busy` and `closed` flags and the id of
the inflight job, if any. -/
structure HandleState where
  busy : Bool
  closed : Bool
  inflight : Option Nat
deriving DecidableEq

/-- Visible effects of a dispatcher or handle step: settling an awaiter with a
result, or rejecting it with an error message. -/
inductive Effect
  | resolved (id : Nat)
  | rejected (id : Nat) (msg : String)
deriving DecidableEq

/-- The `error` event listener installed by the `DBWorker` constructor: when
the underlying worker thread signals an unrecoverable error, reject the current
inflight awaiter (if any), clear it, and set `busy = false`. The `closed` flag
is left untouched. -/
def handleOnError (w : HandleState) (msg : String) : HandleState × List Effect :=
  match w.inflight with
  | some id => ({ w with busy := false, inflight := none }, [.rejected id msg])
  | none => ({ w with busy := false }, [])

/-- `DBDispatcher.#getIdleWorker`: the index of the first handle whose `busy`
flag is false. The `closed` flag is not consulted. -/
def getIdleWorker (ws : List HandleState) : Option Nat :=
  ws.findIdx? (fun w => !w.busy)

/- ───────────── Dispatcher (src/lib/workers/better.worker.js, class DBDispatcher) ───────────── -/

/-- A queued entry: the payload is identified by its job id (the awaiter is
tracked through `Effect`s). -/
structure QEntry where
  id : Nat
deriving DecidableEq

/-- The fields of `DBDispatcher`. -/
structure DispState where
  queue : List QEntry
  workers : List HandleState
  nextJobId : Nat
  closed : Bool
  workerShutdownComplete : Bool
deriving DecidableEq

/-- The dispatcher together with its pending asynchronous work: `running` holds
the awaited `worker.run` calls as pairs of worker index and entry, and
`scheduled` holds the entries captured in pending `setImmediate` callbacks. -/
structure SysState where
  disp : DispState
  running : List (Nat × QEntry)
  scheduled : List QEntry
deriving DecidableEq

/-- Error message sentinel for SQLite contention. -/
def lockedMessage : String := "database is locked"

/-- Error message of a submit after shutdown. -/
def dispatcherClosedMessage : String := "DBDispatcher is closed"

/-- Error message of a submit that hits the `maxQueue` bound. -/
def queueFullMessage : String := "DB queue is full"

/-- Error message used to reject queued entries during shutdown. -/
def shuttingDownMessage : String := "DBDispatcher shutting down"

/-- Apply `f` to the worker at index `i`, when it exists. -/
def updateWorker (ws : List HandleState) (i : Nat) (f : HandleState → HandleState) :
    List HandleState :=
  match ws[i]? with
  | some w => ws.set i (f w)
  | none => ws

/-- The tail of `DBDispatcher.#outsource`: if the queue is nonempty, shift its
head and schedule another `#outsource` call for it on the next scheduler turn. -/
def outsourceTail (s : SysState) : SysState :=
  match s.disp.queue with
  | [] => s
  | h :: t => { s with disp := { s.disp with queue := t }, scheduled := s.scheduled ++ [h] }

/-- The catch block of `DBDispatcher.#outsource` around `worker.run`: when the
error message equals the contention sentinel, unshift the entry back onto the
head of the queue without rejecting its awaiter; for any other message, reject
the awaiter with that error. -/
def outsourceCatch (s : SysState) (e : QEntry) (msg : String) : SysState × List Effect :=
  if msg = lockedMessage then
    ({ s with disp := { s.disp with queue := e :: s.disp.queue } }, [])
  else
    (s, [.rejected e.id msg])

/-- `ws.all closed`: no open workers remain. -/
def allWorkersClosed (ws : List HandleState) : Bool :=
  ws.all (fun w => w.closed)

/-- The synchronous part of `DBDispatcher.#outsource(entry)`, up to the first
await. If an idle worker exists and the dispatcher is closed, that worker is
terminated (its termination treated atomically here) and
`workerShutdownComplete` is raised when no open worker remains; the entry is
dropped and the tail does not run. If an idle worker exists and the dispatcher
is open, `worker.run` marks it busy and the block suspends at the await, the
pending call recorded in `running`. With no idle worker the entry is pushed and
the tail immediately shifts the queue head into a scheduled callback. -/
def outsourceStart (s : SysState) (e : QEntry) : SysState :=
  match getIdleWorker s.disp.workers with
  | some i =>
    if s.disp.closed then
      let ws := updateWorker s.disp.workers i (fun w => { w with closed := true })
      { s with
        disp := { s.disp with
          workers := ws,
          workerShutdownComplete := s.disp.workerShutdownComplete || allWorkersClosed ws } }
    else
      { s with
        disp := { s.disp with
          workers := updateWorker s.disp.workers i
            (fun w => { w with busy := true, inflight := some e.id }) },
        running := s.running ++ [(i, e)] }
  | none =>
    outsourceTail { s with disp := { s.disp with queue := s.disp.queue ++ [e] } }

/-- Outcome of an awaited `worker.run` call: a reply with a result, or a
rejection carrying an error message (a serialized SQL error, or a worker crash
routed through the handle error listener). -/
inductive RunOutcome
  | ok
  | fail (msg : String)
deriving DecidableEq

/-- Completion of an awaited `worker.run(entry)` on worker `i`: the handle
clears `busy` and `inflight`, then the `#outsource` continuation resolves the
entry on success or runs the catch block on failure, and finally the tail
runs. -/
def runComplete (s : SysState) (i : Nat) (e : QEntry) (outcome : RunOutcome) :
    SysState × List Effect :=
  let s1 : SysState :=
    { s with
      running := s.running.erase (i, e),
      disp := { s.disp with
        workers := updateWorker s.disp.workers i
          (fun w => { w with busy := false, inflight := none }) } }
  match outcome with
  | .ok => (outsourceTail s1, [.resolved e.id])
  | .fail msg =>
    let (s2, effs) := outsourceCatch s1 e msg
    (outsourceTail s2, effs)

/-- Result of a `DBDispatcher.submit` call. -/
inductive SubmitResult
  | rejectedClosed
  | rejectedFull
  | accepted (id : Nat)
deriving DecidableEq

/-- `DBDispatcher.submit(job)` with bound `M` (the `maxQueue` option): reject
when closed; reject when the queue length has reached the bound; otherwise
assign `id = nextJobId++` and start `#outsource` on the new entry inside the
returned promise. -/
def submit (M : Nat) (s : SysState) : SysState × SubmitResult :=
  if s.disp.closed then (s, .rejectedClosed)
  else if M ≤ s.disp.queue.length then (s, .rejectedFull)
  else
    let id := s.disp.nextJobId
    (outsourceStart { s with disp := { s.disp with nextJobId := id + 1 } } ⟨id⟩,
      .accepted id)

/-- The synchronous phase of `DBDispatcher.shutdown`: set `closed`, reject
every queued entry with the shutting-down error, clear the queue, and start the
terminations: each currently idle handle is terminated (collapsed here into
this step), while each busy handle is awaited through polling of
`workerShutdownComplete`, so shutdown resolves only after every termination
resolved and, when some handle was busy, `workerShutdownComplete` was observed
true. -/
def shutdownBegin (s : SysState) : SysState × List Effect :=
  ({ s with disp := { s.disp with
      closed := true,
      queue := [],
      workers := s.disp.workers.map
        (fun w => if w.busy then w else { w with closed := true }) } },
    s.disp.queue.map (fun e => Effect.rejected e.id shuttingDownMessage))

/-- One step of the main execution context: a `submit` call, a pending
`setImmediate` callback firing, a pending `worker.run` settling (reply or
crash), or a `shutdown` call. `M` is the `maxQueue` bound. -/
inductive Step (M : Nat) : SysState → SysState → Prop
  | submit (s : SysState) : Step M s (submit M s).1
  | fireScheduled (s : SysState) (e : QEntry) (rest : List QEntry)
      (h : s.scheduled = e :: rest) :
      Step M s (outsourceStart { s with scheduled := rest } e)
  | runDone (s : SysState) (i : Nat) (e : QEntry) (outcome : RunOutcome)
      (h : (i, e) ∈ s.running) :
      Step M s (runComplete s i e outcome).1
  | shutdown (s : SysState) : Step M s (shutdownBegin s).1

/-- The dispatcher state right after construction with `n` workers. -/
def initState (n : Nat) : SysState :=
  ⟨⟨[], List.replicate n ⟨false, false, none⟩, 1, false, false⟩, [], []⟩

/-- States reachable from some initial dispatcher state. -/
inductive Reachable (M : Nat) : SysState → Prop
  | init (n : Nat) : Reachable M (initState n)
  | step {s t : SysState} : Reachable M s → Step M s t → Reachable M t

/- ───────────── Worker runtimes ───────────── -/

/-- The sql text executed by the `exec` arm of `WorkerRuntime.#handle`
(node:sqlite worker): the handler computes `split_sql = job.sql.split('?')`
and calls `this.#db.exec(split_sql[0])`, so only the piece before the first
question mark is executed. -/
def wrExecutedSql (sql : Str) : Str :=
  (splitOnChar '?' sql).headD []

/-- The sql text executed by the `exec` arm of `BetterRuntime.#handle`
(better-sqlite3 worker): `this.#db.exec(sql)` on the whole string. -/
def betterExecutedSql (sql : Str) : Str :=
  sql

/- ───────────── Lemmas about splitOnChar and specSql ───────────── -/

theorem splitOnChar_ne_nil (c : Char) (l : Str) : splitOnChar c l ≠ [] := by
  cases l with
  | nil => simp [splitOnChar]
  | cons x xs =>
    simp only [splitOnChar]
    cases hs : splitOnChar c xs with
    | nil => simp
    | cons y t =>
      dsimp only
      split <;> simp

theorem splitOnChar_cons_self (c : Char) (l : Str) :
    splitOnChar c (c :: l) = [] :: splitOnChar c l := by
  simp only [splitOnChar]
  cases hs : splitOnChar c l with
  | nil => exact absurd hs (splitOnChar_ne_nil c l)
  | cons y t => simp

theorem splitOnChar_of_not_mem (c : Char) (l : Str) (h : c ∉ l) :
    splitOnChar c l = [l] := by
  induction l with
  | nil => rfl
  | cons x xs ih =>
    have hx : ¬ x = c := fun hxc => h (hxc ▸ List.mem_cons_self x xs)
    have hxs : c ∉ xs := fun hm => h (List.mem_cons_of_mem _ hm)
    unfold splitOnChar
    rw [ih hxs]
    simp [hx]

theorem splitOnChar_append (c : Char) (f l : Str) (hf : c ∉ f) (y : Str) (t : List Str)
    (h : splitOnChar c l = y :: t) :
    splitOnChar c (f ++ l) = (f ++ y) :: t := by
  induction f with
  | nil => simpa using h
  | cons x f ih =>
    have hx : ¬ x = c := fun hxc => hf (hxc ▸ List.mem_cons_self x f)
    have hf2 : c ∉ f := fun hm => hf (List.mem_cons_of_mem _ hm)
    rw [List.cons_append]
    unfold splitOnChar
    rw [ih hf2]
    simp [hx]

theorem splitOnChar_length (c : Char) (l : Str) :
    (splitOnChar c l).length = l.count c + 1 := by
  induction l with
  | nil => simp [splitOnChar]
  | cons x xs ih =>
    unfold splitOnChar
    cases hs : splitOnChar c xs with
    | nil => exact absurd hs (splitOnChar_ne_nil c xs)
    | cons y t =>
      rw [hs] at ih
      by_cases hx : x = c <;>
        simp [hx, List.count_cons] at ih ⊢ <;> omega

theorem specSql_cons_cons (f g : Str) (gs : List Str) :
    specSql (f :: g :: gs) = f ++ ('?' :: specSql (g :: gs)) := by
  simp [specSql]

theorem splitOnChar_specSql (f : Str) (fs : List Str) (hf : '?' ∉ f)
    (hfs : ∀ g ∈ fs, '?' ∉ g) :
    splitOnChar '?' (specSql (f :: fs)) = f :: fs := by
  induction fs generalizing f with
  | nil =>
    have : specSql [f] = f := by simp [specSql]
    rw [this, splitOnChar_of_not_mem _ _ hf]
  | cons g gs ih =>
    have hg : '?' ∉ g := hfs g (List.mem_cons_self g gs)
    have hgs : ∀ x ∈ gs, '?' ∉ x := fun x hx => hfs x (List.mem_cons_of_mem _ hx)
    rw [specSql_cons_cons,
      splitOnChar_append '?' f _ hf _ _ (splitOnChar_cons_self '?' (specSql (g :: gs))),
      ih g hg hgs]
    simp

/- ───────────── Lemmas about the dispatcher step functions ───────────── -/

theorem outsourceTail_queue (s : SysState) :
    (outsourceTail s).disp.queue = s.disp.queue.tail := by
  unfold outsourceTail
  cases hq : s.disp.queue <;> simp [hq]

theorem outsourceTail_workers (s : SysState) :
    (outsourceTail s).disp.workers = s.disp.workers := by
  unfold outsourceTail
  cases hq : s.disp.queue <;> simp

theorem outsourceTail_nextJobId (s : SysState) :
    (outsourceTail s).disp.nextJobId = s.disp.nextJobId := by
  unfold outsourceTail
  cases hq : s.disp.queue <;> simp

theorem outsourceTail_wsc (s : SysState) :
    (outsourceTail s).disp.workerShutdownComplete = s.disp.workerShutdownComplete := by
  unfold outsourceTail
  cases hq : s.disp.queue <;> simp

theorem outsourceCatch_workers (s : SysState) (e : QEntry) (msg : String) :
    (outsourceCatch s e msg).1.disp.workers = s.disp.workers := by
  unfold outsourceCatch
  split <;> simp

theorem outsourceCatch_wsc (s : SysState) (e : QEntry) (msg : String) :
    (outsourceCatch s e msg).1.disp.workerShutdownComplete
      = s.disp.workerShutdownComplete := by
  unfold outsourceCatch
  split <;> simp

theorem outsourceStart_nextJobId (s : SysState) (e : QEntry) :
    (outsourceStart s e).disp.nextJobId = s.disp.nextJobId := by
  unfold outsourceStart
  split
  · split <;> simp
  · rw [outsourceTail_nextJobId]

theorem outsourceStart_queue_nil (s : SysState) (e : QEntry) (h : s.disp.queue = []) :
    (outsourceStart s e).disp.queue = [] := by
  unfold outsourceStart
  split
  · split <;> simpa using h
  · rw [outsourceTail_queue]
    simp [h]

theorem runComplete_queue_nil (s : SysState) (i : Nat) (e : QEntry) (o : RunOutcome)
    (h : s.disp.queue = []) :
    (runComplete s i e o).1.disp.queue = [] := by
  unfold runComplete
  cases o with
  | ok =>
    rw [outsourceTail_queue]
    simp [h]
  | fail msg =>
    dsimp only
    rw [outsourceTail_queue]
    unfold outsourceCatch
    split <;> simp [h]

theorem submit_queue_nil (M : Nat) (s : SysState) (h : s.disp.queue = []) :
    (submit M s).1.disp.queue = [] := by
  unfold submit
  split
  · exact h
  · split
    · exact h
    · exact outsourceStart_queue_nil _ _ (by simpa using h)

/-- Every reachable dispatcher state has an empty waiting queue: each
synchronous block of `#outsource` that grows the queue also shifts its head
into a scheduled callback before returning. -/
theorem reachable_queue_nil {M : Nat} {s : SysState} (h : Reachable M s) :
    s.disp.queue = [] := by
  induction h with
  | init n => rfl
  | step hr hs ih =>
    cases hs with
    | submit => exact submit_queue_nil _ _ ih
    | fireScheduled e rest hsch => exact outsourceStart_queue_nil _ _ (by simpa using ih)
    | runDone i e outcome hrun => exact runComplete_queue_nil _ _ _ _ ih
    | shutdown => rfl

theorem mem_of_getElemOpt {α : Type} {l : List α} {i : Nat} {a : α}
    (h : l[i]? = some a) : a ∈ l := by
  obtain ⟨hlt, he⟩ := List.getElem?_eq_some.mp h
  exact he ▸ List.getElem_mem hlt

theorem closedAll_updateWorker {ws : List HandleState} {i : Nat}
    {f : HandleState → HandleState}
    (hbase : ∀ w ∈ ws, w.closed = true)
    (hf : ∀ w ∈ ws, (f w).closed = true) :
    ∀ w ∈ updateWorker ws i f, w.closed = true := by
  unfold updateWorker
  cases hg : ws[i]? with
  | none => exact hbase
  | some w0 =>
    intro w hw
    rcases List.mem_or_eq_of_mem_set hw with h1 | h2
    · exact hbase w h1
    · exact h2 ▸ hf w0 (mem_of_getElemOpt hg)

/-- The key shutdown invariant: whenever `workerShutdownComplete` is set, every
handle has `closed = true`. -/
def WorkersClosedInv (s : SysState) : Prop :=
  s.disp.workerShutdownComplete = true → ∀ w ∈ s.disp.workers, w.closed = true

theorem wcInv_outsourceStart {s : SysState} {e : QEntry} (ih : WorkersClosedInv s) :
    WorkersClosedInv (outsourceStart s e) := by
  unfold WorkersClosedInv at *
  unfold outsourceStart
  cases hg : getIdleWorker s.disp.workers with
  | some i =>
    by_cases hc : s.disp.closed
    · simp only [hc, if_true]
      intro hwsc w hw
      have hor : s.disp.workerShutdownComplete = true
          ∨ allWorkersClosed (updateWorker s.disp.workers i
              (fun w => { w with closed := true })) = true := by
        simpa using hwsc
      rcases hor with hold | hall
      · refine closedAll_updateWorker (ih hold) ?_ w hw
        intro v hv
        rfl
      · exact List.all_eq_true.mp hall w hw
    · simp only [hc, if_false]
      intro hwsc w hw
      refine closedAll_updateWorker (ih hwsc) ?_ w hw
      intro v hv
      exact ih hwsc v hv
  | none =>
    intro hwsc w hw
    rw [outsourceTail_workers] at hw
    rw [outsourceTail_wsc] at hwsc
    exact ih hwsc w hw

theorem wcInv_runComplete {s : SysState} {i : Nat} {e : QEntry} {o : RunOutcome}
    (ih : WorkersClosedInv s) : WorkersClosedInv (runComplete s i e o).1 := by
  unfold WorkersClosedInv at *
  unfold runComplete
  cases o with
  | ok =>
    intro hwsc w hw
    rw [outsourceTail_workers] at hw
    rw [outsourceTail_wsc] at hwsc
    refine closedAll_updateWorker (ih hwsc) ?_ w hw
    intro v hv
    exact ih hwsc v hv
  | fail msg =>
    intro hwsc w hw
    dsimp only at hw hwsc
    rw [outsourceTail_workers, outsourceCatch_workers] at hw
    rw [outsourceTail_wsc, outsourceCatch_wsc] at hwsc
    refine closedAll_updateWorker (ih hwsc) ?_ w hw
    intro v hv
    exact ih hwsc v hv

theorem wcInv_submit {M : Nat} {s : SysState} (ih : WorkersClosedInv s) :
    WorkersClosedInv (submit M s).1 := by
  unfold submit
  split
  · exact ih
  · split
    · exact ih
    · exact wcInv_outsourceStart ih

theorem wcInv_shutdownBegin {s : SysState} (ih : WorkersClosedInv s) :
    WorkersClosedInv (shutdownBegin s).1 := by
  unfold WorkersClosedInv at *
  intro hwsc w hw
  simp only [shutdownBegin] at hw hwsc
  rcases List.mem_map.mp hw with ⟨w0, hw0, heq⟩
  by_cases hb : w0.busy = true
  · rw [← heq]
    simp only [hb, if_true]
    exact ih hwsc w0 hw0
  · rw [← heq]
    simp [hb]

/-- The shutdown invariant holds in every reachable dispatcher state. -/
theorem reachable_workersClosedInv {M : Nat} {s : SysState} (h : Reachable M s) :
    WorkersClosedInv s := by
  induction h with
  | init n =>
    intro hwsc w hw
    simp [initState] at hwsc
  | step hr hs ih =>
    cases hs with
    | submit => exact wcInv_submit ih
    | fireScheduled e rest hsch => exact wcInv_outsourceStart ih
    | runDone i e outcome hrun => exact wcInv_runComplete ih
    | shutdown => exact wcInv_shutdownBegin ih

/- ───────────── Claim theorems ───────────── -/

/-- C1: DB.transaction(userFn): with the flag already set, the callback runs
directly against the same object and nothing is submitted; otherwise the flag
is set, beginTransaction is submitted, the callback runs, and on success commit
is submitted, the flag is cleared and the callback result is returned, while on
any thrown error (from begin, from the callback, or from commit) a rollback job
is submitted with its failure swallowed, the flag is cleared and the original
error is re-raised. -/
theorem DB_transaction_spec {ε ρ : Type} (b : Except ε Unit) (f : Except ε ρ)
    (c r : Except ε Unit) (e : ε) (v : ρ) :
    transaction true b f c r = ⟨f, true, [], true⟩
    ∧ transaction false (.error e) f c r
        = ⟨.error e, false, [.beginTransaction, .rollback], false⟩
    ∧ transaction false (.ok ()) (Except.error e : Except ε ρ) c r
        = ⟨.error e, false, [.beginTransaction, .rollback], true⟩
    ∧ transaction false (.ok ()) (.ok v) (.ok ()) r
        = ⟨.ok v, false, [.beginTransaction, .commit], true⟩
    ∧ transaction false (.ok ()) (.ok v) (.error e) r
        = ⟨.error e, false, [.beginTransaction, .commit, .rollback], true⟩ :=
  ⟨rfl, rfl, rfl, rfl, rfl⟩

/-- C2 counterexample: with fragments containing a question mark the claimed
count and round-trip properties fail: compile on fragments "a?","b" with one
value yields sql "a??b", which has two question marks rather than one, and
rejoining its question-mark split gives "ab", not the fragment concatenation
"a?b". -/
theorem SQLCompiler_qcount_cex :
    compile [['a', '?'], ['b']] ([0] : List Int) = .ok ⟨['a', '?', '?', 'b'], [0]⟩
    ∧ (['a', '?', '?', 'b'] : Str).count '?' = 2
    ∧ (2 : Nat) ≠ 1
    ∧ (splitOnChar '?' ['a', '?', '?', 'b']).flatten = ['a', 'b']
    ∧ ([['a', '?'], ['b']] : List Str).flatten = ['a', '?', 'b']
    ∧ (['a', 'b'] : Str) ≠ ['a', '?', 'b'] := by decide

/-- C2 (amended): for every input with one more fragment than values, compile
returns the interleaved sql with the values unchanged; and when no fragment
contains a question mark, the sql has exactly one question mark per value and
rejoining its question-mark split recovers the concatenation of the
fragments. -/
theorem SQLCompiler_compile_spec {α : Type} (strings : List Str) (values : List α)
    (h : strings.length = values.length + 1) :
    compile strings values = .ok ⟨specSql strings, values⟩
    ∧ ((∀ f ∈ strings, '?' ∉ f) →
        (specSql strings).count '?' = values.length
        ∧ (splitOnChar '?' (specSql strings)).flatten = strings.flatten) := by
  cases strings with
  | nil => simp at h
  | cons f fs =>
    have hlen : fs.length = values.length := by simpa using h
    constructor
    · unfold compile
      rw [if_neg (by omega)]
      by_cases hv : values.length = 0
      · have hvnil : values = [] := List.length_eq_zero.mp hv
        have hfs : fs = [] := List.length_eq_zero.mp (by omega)
        subst hvnil hfs
        simp [specSql]
      · rw [if_neg hv]
        rw [show (f :: fs).drop 1 = fs from rfl, ← hlen, List.take_length]
        simp [specSql]
    · intro hq
      have hf : '?' ∉ f := hq f (List.mem_cons_self f fs)
      have hfs : ∀ g ∈ fs, '?' ∉ g := fun g hg => hq g (List.mem_cons_of_mem _ hg)
      have hsplit := splitOnChar_specSql f fs hf hfs
      constructor
      · have hlen2 := splitOnChar_length '?' (specSql (f :: fs))
        rw [hsplit] at hlen2
        simp at hlen2
        omega
      · rw [hsplit]

theorem SQLCompiler_compile_spec_witness :
    compile [['S'], ['T']] ([0] : List Int) = .ok ⟨['S', '?', 'T'], [0]⟩
    ∧ (['S', '?', 'T'] : Str).count '?' = 1 := by
  have h := SQLCompiler_compile_spec [['S'], ['T']] ([0] : List Int) (by decide)
  exact ⟨h.1, (h.2 (by decide)).1⟩

/-- C3: in the outsource catch block around worker.run, a failure whose message
equals the contention sentinel re-enqueues the entry at the head of the waiting
queue and leaves its awaiter unsettled, and that is the only retried case: a
failure with any other message rejects the awaiter with that error. -/
theorem dispatcher_contention_retry_spec (s : SysState) (i : Nat) (e : QEntry)
    (msg : String) :
    (msg = lockedMessage →
      outsourceCatch s e msg
          = ({ s with disp := { s.disp with queue := e :: s.disp.queue } }, [])
      ∧ (runComplete s i e (.fail msg)).2 = [])
    ∧ (msg ≠ lockedMessage →
      outsourceCatch s e msg = (s, [.rejected e.id msg])
      ∧ (runComplete s i e (.fail msg)).2 = [.rejected e.id msg]) := by
  constructor
  · intro h
    constructor
    · simp [outsourceCatch, h]
    · simp [runComplete, outsourceCatch, h]
  · intro h
    constructor
    · simp [outsourceCatch, h]
    · simp [runComplete, outsourceCatch, h]

theorem dispatcher_contention_retry_witness :
    outsourceCatch (initState 1) ⟨7⟩ lockedMessage
        = (⟨⟨[⟨7⟩], [⟨false, false, none⟩], 1, false, false⟩, [], []⟩, [])
    ∧ outsourceCatch (initState 1) ⟨7⟩ "no such table: t"
        = (initState 1, [.rejected 7 "no such table: t"]) :=
  ⟨((dispatcher_contention_retry_spec (initState 1) 0 ⟨7⟩ lockedMessage).1 rfl).1,
    ((dispatcher_contention_retry_spec (initState 1) 0 ⟨7⟩ "no such table: t").2
      (by decide)).1⟩

/-- C4: the synchronous phase of shutdown rejects every queued entry with the
shutting-down error, clears the queue, sets the closed flag and terminates
every idle handle; and in any reachable state where workerShutdownComplete has
been observed true (the condition under which shutdown stops waiting for
formerly busy handles), every handle has closed = true. -/
theorem dispatcher_shutdown_spec (M : Nat) (s t : SysState)
    (ht : Reachable M t) (hwsc : t.disp.workerShutdownComplete = true) :
    (shutdownBegin s).2
        = s.disp.queue.map (fun e => Effect.rejected e.id shuttingDownMessage)
    ∧ (shutdownBegin s).1.disp.queue = []
    ∧ (shutdownBegin s).1.disp.closed = true
    ∧ (∀ w ∈ (shutdownBegin s).1.disp.workers, w.busy = true ∨ w.closed = true)
    ∧ (∀ w ∈ t.disp.workers, w.closed = true) := by
  refine ⟨rfl, rfl, rfl, ?_, ?_⟩
  · intro w hw
    simp only [shutdownBegin] at hw
    rcases List.mem_map.mp hw with ⟨w0, hw0, heq⟩
    by_cases hb : w0.busy = true
    · left
      rw [← heq]
      simp [hb]
    · right
      rw [← heq]
      simp [hb]
  · exact reachable_workersClosedInv ht hwsc

/-- A five-step trace: submit a job to the single worker, submit a second job
that lands in a scheduled callback, call shutdown while the worker is busy, let
the inflight job complete, and let the scheduled callback fire against the now
closed dispatcher, which terminates the idle worker and raises
workerShutdownComplete. -/
def shutdownTraceS1 : SysState := (submit 2 (initState 1)).1

def shutdownTraceS2 : SysState := (submit 2 shutdownTraceS1).1

def shutdownTraceS3 : SysState := (shutdownBegin shutdownTraceS2).1

def shutdownTraceS4 : SysState := (runComplete shutdownTraceS3 0 ⟨1⟩ .ok).1

def shutdownTraceS5 : SysState := outsourceStart { shutdownTraceS4 with scheduled := [] } ⟨2⟩

theorem dispatcher_shutdown_spec_witness :
    allWorkersClosed shutdownTraceS5.disp.workers = true
    ∧ shutdownTraceS5.disp.workerShutdownComplete = true := by
  have h0 : Reachable 2 (initState 1) := Reachable.init 1
  have h1 : Reachable 2 shutdownTraceS1 := Reachable.step h0 (Step.submit (initState 1))
  have h2 : Reachable 2 shutdownTraceS2 := Reachable.step h1 (Step.submit shutdownTraceS1)
  have h3 : Reachable 2 shutdownTraceS3 := Reachable.step h2 (Step.shutdown shutdownTraceS2)
  have h4 : Reachable 2 shutdownTraceS4 :=
    Reachable.step h3 (Step.runDone shutdownTraceS3 0 ⟨1⟩ .ok (by decide))
  have h5 : Reachable 2 shutdownTraceS5 :=
    Reachable.step h4 (Step.fireScheduled shutdownTraceS4 ⟨2⟩ [] (by decide))
  have h := dispatcher_shutdown_spec 2 (initState 1) shutdownTraceS5 h5 (by decide)
  exact ⟨List.all_eq_true.mpr (fun w hw => h.2.2.2.2 w hw), by decide⟩

/-- C5: with maxQueue bound M, every reachable dispatcher state holds at most M
queued entries (the queue is in fact always drained within the same synchronous
block), and submit rejects with the queue-full error, leaving the state
untouched, whenever the queue length has reached M on an open dispatcher. -/
theorem dispatcher_queue_bound_spec (M : Nat) (s : SysState) (hs : Reachable M s)
    (t : SysState) (hc : t.disp.closed = false) (hf : M ≤ t.disp.queue.length) :
    s.disp.queue.length ≤ M ∧ submit M t = (t, .rejectedFull) := by
  constructor
  · rw [reachable_queue_nil hs]
    exact Nat.zero_le M
  · simp [submit, hc, hf]

theorem dispatcher_queue_bound_witness :
    (initState 3).disp.queue.length ≤ 2
    ∧ submit 2 (⟨⟨[⟨1⟩, ⟨2⟩], [], 5, false, false⟩, [], []⟩ : SysState)
        = (⟨⟨[⟨1⟩, ⟨2⟩], [], 5, false, false⟩, [], []⟩, .rejectedFull) :=
  dispatcher_queue_bound_spec 2 (initState 3) (Reachable.init 3)
    (⟨⟨[⟨1⟩, ⟨2⟩], [], 5, false, false⟩, [], []⟩ : SysState) rfl (by decide)

/-- C6: the exec arm of the node:sqlite worker runtime executes only the piece
of the script before the first question mark, because the handler splits
job.sql on question marks and passes only the first piece to the driver; the
better-sqlite3 runtime, whose message protocol the source documents as
identical, executes the whole script. -/
theorem worker_exec_truncation :
    wrExecutedSql ("CREATE TABLE t(x); -- ok?").toList
        = ("CREATE TABLE t(x); -- ok").toList
    ∧ betterExecutedSql ("CREATE TABLE t(x); -- ok?").toList
        = ("CREATE TABLE t(x); -- ok?").toList
    ∧ ("CREATE TABLE t(x); -- ok").toList ≠ ("CREATE TABLE t(x); -- ok?").toList := by
  decide

/-- C7 counterexample: after the runtime signals an unrecoverable error, the
handle ends with closed = false and the idle-worker search, which checks only
the busy flag, selects it again, so the dispatcher would route another job to
the crashed handle. -/
theorem worker_crash_reuse_cex :
    (handleOnError ⟨true, false, some 5⟩ "boom").1 = ⟨false, false, none⟩
    ∧ (handleOnError ⟨true, false, some 5⟩ "boom").1.closed = false
    ∧ getIdleWorker [(handleOnError ⟨true, false, some 5⟩ "boom").1] = some 0 := by
  decide

/-- C7 (amended): on a runtime error the handle rejects the current inflight
awaiter with that error and sets busy = false, but its closed flag is left
unchanged, and the idle-worker search selects any handle with busy = false
regardless of its closed flag, so nothing prevents the crashed handle from
being handed another job. -/
theorem worker_crash_spec (w : HandleState) (msg : String) (id : Nat)
    (h : w.inflight = some id) :
    handleOnError w msg = ({ w with busy := false, inflight := none }, [.rejected id msg])
    ∧ (handleOnError w msg).1.closed = w.closed
    ∧ (∀ v : HandleState, v.busy = false → getIdleWorker [v] = some 0) := by
  refine ⟨?_, ?_, ?_⟩
  · simp [handleOnError, h]
  · simp [handleOnError, h]
  · intro v hv
    simp [getIdleWorker, List.findIdx?_cons, hv]

theorem worker_crash_spec_witness :
    (⟨true, false, some 3⟩ : HandleState).inflight = some 3
    ∧ handleOnError ⟨true, false, some 3⟩ "x"
        = (⟨false, false, none⟩, [.rejected 3 "x"]) :=
  ⟨rfl, (worker_crash_spec ⟨true, false, some 3⟩ "x" 3 rfl).1⟩

/-- C8 counterexample: constructing with no explicit worker count, the
non-native driver and an in-memory database yields a dispatcher size of 1, not
the available parallelism the claim requires, because the destructuring default
workers = 1 shadows the computed defaultWorkers expression. -/
theorem DB_default_workers_cex :
    dbWorkerSize .undefined "node:sqlite" ":memory:" 8 = 1
    ∧ defaultWorkers "node:sqlite" ":memory:" 8 = 8
    ∧ (1 : Nat) ≠ 8 := by decide

/-- C8 (amended): when the constructor is called without an explicit worker
count the dispatcher size is always 1; the driver- and filename-dependent
defaultWorkers value is used only when workers is passed as null, and an
explicit number is used as given. -/
theorem DB_default_workers_spec (driver filename : String) (p n : Nat) :
    dbWorkerSize .undefined driver filename p = 1
    ∧ dbWorkerSize .null driver filename p = defaultWorkers driver filename p
    ∧ dbWorkerSize (.num n) driver filename p = n :=
  ⟨rfl, rfl, rfl⟩

/-- C9: whenever the fragment count minus one differs from the value count
(over the integers, as in the source), compile fails with InvalidQuery, and in
particular compile on an empty fragment list fails for every value list. -/
theorem SQLCompiler_arity_error_spec {α : Type} (strings : List Str) (values : List α)
    (h : (strings.length : Int) - 1 ≠ (values.length : Int)) :
    compile strings values = .error .invalidQuery
    ∧ compile ([] : List Str) values = .error .invalidQuery := by
  constructor
  · unfold compile
    rw [if_pos h]
  · unfold compile
    rw [if_pos (by simp only [List.length_nil, Nat.cast_zero]; omega)]

theorem SQLCompiler_arity_error_witness :
    ((([['a']] : List Str).length : Int) - 1 ≠ (([0, 0] : List Int).length : Int))
    ∧ compile [['a']] ([0, 0] : List Int) = .error .invalidQuery :=
  ⟨by decide, (SQLCompiler_arity_error_spec [['a']] ([0, 0] : List Int) (by decide)).1⟩

/-- C10: a submit rejected because the dispatcher is closed or because the
queue is at the bound returns the state completely unchanged, with nextJobId
not incremented, and a submit that passes both checks is assigned exactly the
current nextJobId, which is then incremented by one. -/
theorem dispatcher_submit_reject_pure (M : Nat) (s : SysState) :
    (s.disp.closed = true → submit M s = (s, .rejectedClosed))
    ∧ (s.disp.closed = false → M ≤ s.disp.queue.length → submit M s = (s, .rejectedFull))
    ∧ (s.disp.closed = false → s.disp.queue.length < M →
        (submit M s).2 = .accepted s.disp.nextJobId
        ∧ (submit M s).1.disp.nextJobId = s.disp.nextJobId + 1) := by
  refine ⟨?_, ?_, ?_⟩
  · intro h
    simp [submit, h]
  · intro h1 h2
    simp [submit, h1, h2]
  · intro h1 h2
    have h3 : ¬ M ≤ s.disp.queue.length := Nat.not_le.mpr h2
    constructor
    · simp [submit, h1, h3]
    · simp [submit, h1, h3, outsourceStart_nextJobId]

theorem dispatcher_submit_reject_pure_witness :
    submit 1 (⟨⟨[], [], 4, true, false⟩, [], []⟩ : SysState)
        = ((⟨⟨[], [], 4, true, false⟩, [], []⟩ : SysState), .rejectedClosed)
    ∧ submit 1 (⟨⟨[⟨9⟩], [], 4, false, false⟩, [], []⟩ : SysState)
        = ((⟨⟨[⟨9⟩], [], 4, false, false⟩, [], []⟩ : SysState), .rejectedFull)
    ∧ (submit 1 (initState 1)).2 = .accepted 1 :=
  ⟨(dispatcher_submit_reject_pure 1 _).1 rfl,
    (dispatcher_submit_reject_pure 1 _).2.1 rfl (by decide),
    ((dispatcher_submit_reject_pure 1 (initState 1)).2.2 rfl (by decide)).1⟩
